import Mathlib

/-!
Verification development for the dotenvage configuration loader.

This file shallow-embeds the core of the dotenvage Rust crate
(src/loader.rs and src/manager.rs): the dimension resolvers, the
candidate-path generator, the env-file parser, the dynamic-discovery
fixpoint loop and the envelope-encryption wrapper.  The ambient process
environment is modelled as an explicit `String → Option String` state
threaded through every operation; the directory is a finite list of
(file name, file content) pairs read in directory order.  The age
encryption primitives themselves live in a third-party crate, so they
appear here as explicit function parameters (`encB`, `decB`,
`armorDec`); everything the repository itself does around them — the
`ENC[AGE:b64:...]` wrapping, base64 coding, trimming, prefix/suffix
detection — is embedded concretely.

Machine strings are modelled as Lean `String`/`List Char`; byte vectors
as `List Nat` with values below 256.  Rust's `str::trim` trims Unicode
white space and `char::to_lowercase` is Unicode aware; for every string
these functions touch in the embedded code paths the ASCII behaviour of
`Char.isWhitespace`/`Char.toLower` coincides with Rust's.
-/

namespace Dotenvage

/-- The ambient process environment: `std::env::var` gives `some` for a set
variable (possibly the empty string) and `none` for an unset one. -/
abbrev EnvState := String → Option String

/-- A parsed variable map (Rust `HashMap<String, String>`), viewed
extensionally as a lookup function. -/
abbrev VarMap := String → Option String

/-- The double-quote character. -/
def dq : Char := Char.ofNat 34

/-- The single-quote character. -/
def sq : Char := Char.ofNat 39

/-- Newline. -/
def nlChar : Char := Char.ofNat 10

/-- Carriage return. -/
def crChar : Char := Char.ofNat 13

/-- A one-character newline string, used to assemble multi-line file
contents in concrete examples. -/
def nl : String := String.mk [nlChar]

/-- Rust `str::trim` on a character list. -/
def trimL (l : List Char) : List Char :=
  ((l.dropWhile fun c => c.isWhitespace).reverse.dropWhile fun c => c.isWhitespace).reverse

/-- Rust `str::strip_prefix`: if `p` is an initial segment of `l`, return
the remainder. -/
def stripPfxL : List Char → List Char → Option (List Char)
  | [], l => some l
  | _ :: _, [] => none
  | p :: ps, c :: cs => if p = c then stripPfxL ps cs else none

/-- Rust `str::starts_with`. -/
def startsWithL (p l : List Char) : Bool :=
  (stripPfxL p l).isSome

/-- Rust `str::strip_suffix`. -/
def stripSfxL (s l : List Char) : Option (List Char) :=
  (stripPfxL s.reverse l.reverse).map List.reverse

/-- Rust `str::trim_matches`: repeatedly strip the character `c` from both
ends. -/
def trimMatchesL (c : Char) (l : List Char) : List Char :=
  ((l.dropWhile fun x => x = c).reverse.dropWhile fun x => x = c).reverse

/-- Split a character list on every occurrence of `c` (Rust `str::split`). -/
def splitOnChar (c : Char) : List Char → List (List Char)
  | [] => [[]]
  | x :: xs =>
    let r := splitOnChar c xs
    if x = c then [] :: r
    else
      match r with
      | h :: t => (x :: h) :: t
      | [] => [[x]]

/-- Split on the first occurrence of `c` (Rust `str::split_once`). -/
def splitOnceChar (c : Char) : List Char → Option (List Char × List Char)
  | [] => none
  | x :: xs =>
    if x = c then some ([], xs)
    else
      match splitOnceChar c xs with
      | some (a, b) => some (x :: a, b)
      | none => none

/-- Rust `str::lines`: split on newline, a trailing newline produces no
final empty line, and a trailing carriage return is stripped from each
line. -/
def rustLines (l : List Char) : List (List Char) :=
  let parts := splitOnChar nlChar l
  let parts := if parts.getLast? = some [] then parts.dropLast else parts
  parts.map fun line =>
    match line.getLast? with
    | some c => if c = crChar then line.dropLast else line
    | none => line

/-- Rust `str::to_lowercase` (ASCII range, which covers every string the
embedded code lowercases). -/
def strLower (s : String) : String :=
  String.mk (s.toList.map Char.toLower)

/-- First-some choice on options, mirroring Rust `Option::or_else`
chains. -/
def orO (a b : Option String) : Option String :=
  match a with
  | some x => some x
  | none => b

/-! ## Base64 (the `base64` crate's STANDARD engine)

Standard alphabet, canonical padding required, non-zero trailing bits
rejected — the configuration used by `base64::engine::general_purpose::STANDARD`. -/

/-- Value of a base64 alphabet character. -/
def charToSextet (c : Char) : Option Nat :=
  let k := c.toNat
  if 65 ≤ k ∧ k ≤ 90 then some (k - 65)
  else if 97 ≤ k ∧ k ≤ 122 then some (k - 97 + 26)
  else if 48 ≤ k ∧ k ≤ 57 then some (k - 48 + 52)
  else if k = 43 then some 62
  else if k = 47 then some 63
  else none

/-- Base64 alphabet character for a six-bit value. -/
def sextetToChar (n : Nat) : Char :=
  Char.ofNat
    (if n < 26 then 65 + n
     else if n < 52 then 97 + (n - 26)
     else if n < 62 then 48 + (n - 52)
     else if n = 62 then 43
     else 47)

/-- Base64-encode a byte list, three bytes at a time, padding the final
group with `=`. -/
def b64EncodeBytes : List Nat → List Char
  | [] => []
  | [a] => [sextetToChar (a / 4), sextetToChar (a % 4 * 16), '=', '=']
  | [a, b] =>
    [sextetToChar (a / 4), sextetToChar (a % 4 * 16 + b / 16), sextetToChar (b % 16 * 4), '=']
  | a :: b :: c :: rest =>
    sextetToChar (a / 4) :: sextetToChar (a % 4 * 16 + b / 16) ::
      sextetToChar (b % 16 * 4 + c / 64) :: sextetToChar (c % 64) :: b64EncodeBytes rest

/-- Base64-decode a character list; `none` on any malformation (bad
length, invalid character, misplaced padding, non-canonical trailing
bits). -/
def b64DecodeChars : List Char → Option (List Nat)
  | c0 :: c1 :: c2 :: c3 :: rest =>
    (match charToSextet c0, charToSextet c1 with
     | some s0, some s1 =>
       if c2 = '=' then
         if c3 = '=' ∧ rest = [] then
           if s1 % 16 = 0 then some [s0 * 4 + s1 / 16] else none
         else none
       else
         match charToSextet c2 with
         | some s2 =>
           if c3 = '=' then
             if rest = [] then
               if s2 % 4 = 0 then some [s0 * 4 + s1 / 16, s1 % 16 * 16 + s2 / 4] else none
             else none
           else
             match charToSextet c3 with
             | some s3 =>
               match b64DecodeChars rest with
               | some bs =>
                 some ((s0 * 4 + s1 / 16) :: (s1 % 16 * 16 + s2 / 4) :: (s2 % 4 * 64 + s3) :: bs)
               | none => none
             | none => none
         | none => none
     | _, _ => none)
  | [] => some []
  | _ => none

/-! ## The secret cipher (src/manager.rs)

`SecretManager` holds an age X25519 identity and delegates the actual
envelope encryption to the `age` crate.  The crate functions appear as
parameters: `encB p` is the envelope byte vector age produces for
plaintext `p` encrypted to the manager's own recipient, `decB` the
envelope decryption (byte vector to UTF-8 plaintext, `Except` error on
header parse failure, MAC mismatch, wrong key or invalid UTF-8) and
`armorDec` the armored-reader variant applied to the trimmed value. -/

/-- Error taxonomy of the crate (src/error.rs), fields reduced to the
message strings the code formats. -/
inductive SecretsError where
  | KeyLoadFailed (msg : String)
  | EncryptionFailed (msg : String)
  | DecryptionFailed (msg : String)
  | EnvFileReadFailed (path reason : String)
  | EnvFileParseFailed (path reason : String)
  | EnvVarNotFound (key : String)
deriving DecidableEq

/-- The compact envelope tag `ENC[AGE:b64:`. -/
def encTag : List Char := "ENC[AGE:b64:".toList

/-- The legacy armor header. -/
def armorTag : List Char := "-----BEGIN AGE ENCRYPTED FILE-----".toList

/-- `SecretManager::is_encrypted`: the trimmed value starts with the
compact tag or the legacy armor header. -/
def is_encrypted (value : String) : Bool :=
  let t := trimL value.toList
  startsWithL encTag t || startsWithL armorTag t

/-- `SecretManager::encrypt_value`: age-encrypt to the own recipient,
base64-encode the envelope bytes and wrap them as `ENC[AGE:b64:...]`.
Writing into an in-memory buffer with a valid recipient does not fail,
so the embedded encryptor is total. -/
def encrypt_value (encB : String → List Nat) (plaintext : String) : String :=
  String.mk (encTag ++ b64EncodeBytes (encB plaintext) ++ [']'])

/-- `SecretManager::decrypt_value`: strip the compact envelope (prefix
and closing bracket), base64-decode and age-decrypt; otherwise try the
legacy armor header on the trimmed value; otherwise return the input
unchanged. -/
def decrypt_value (decB : List Nat → Except String String)
    (armorDec : String → Except String String) (value : String) :
    Except SecretsError String :=
  let t := trimL value.toList
  match (stripPfxL encTag t).bind (stripSfxL [']']) with
  | some inner =>
    match b64DecodeChars inner with
    | none => .error (.DecryptionFailed "invalid base64")
    | some bytes =>
      match decB bytes with
      | .error e => .error (.DecryptionFailed e)
      | .ok p => .ok p
  | none =>
    if startsWithL armorTag t then
      match armorDec (String.mk t) with
      | .error e => .error (.DecryptionFailed e)
      | .ok p => .ok p
    else .ok value

/-! ## Outcomes

Rust code can return `Ok`, return `Err`, or panic (unwind).  `RResult`
models all three so that out-of-bounds slicing is observable. -/

/-- Result of running a fallible Rust function that may also panic. -/
inductive RResult (α : Type) where
  | ok (val : α)
  | err (e : SecretsError)
  | panicked (msg : String)

/-- Whether an `RResult` is `ok`. -/
def RResult.isOk : RResult α → Bool
  | .ok _ => true
  | _ => false

/-- Whether an `RResult` panicked. -/
def RResult.isPanicked : RResult α → Bool
  | .panicked _ => true
  | _ => false

/-- Outcome of a loader call whose payload is carried separately. -/
inductive ROut where
  | ok
  | err (e : SecretsError)
  | panicked (msg : String)
deriving DecidableEq

/-- Whether an `ROut` is an error. -/
def ROut.isErr : ROut → Bool
  | .err _ => true
  | _ => false

/-- The empty variable map. -/
def emptyV : VarMap := fun _ => none

/-- `HashMap::insert`: later insertion wins. -/
def insertV (m : VarMap) (k v : String) : VarMap :=
  fun k' => if k' = k then some v else m k'

/-- `HashMap::extend`: every key of `m'` overrides `m`. -/
def extendV (m m' : VarMap) : VarMap :=
  fun k =>
    match m' k with
    | some v => some v
    | none => m k

/-- Set a process environment variable (`std::env::set_var`). -/
def envSet (e : EnvState) (k v : String) : EnvState :=
  fun k' => if k' = k then some v else e k'

/-- Remove a process environment variable (`std::env::remove_var`). -/
def envRemove (e : EnvState) (k : String) : EnvState :=
  fun k' => if k' = k then none else e k'

/-- `std::env::var(k).ok().filter(|s| !s.is_empty())`. -/
def varNE (e : EnvState) (k : String) : Option String :=
  match e k with
  | some s => if s = "" then none else some s
  | none => none

/-- Boolean membership in a path list (`HashSet::contains` /
`Vec::iter().any`, kept in sync in the Rust code). -/
def memB (p : String) (l : List String) : Bool :=
  l.any fun q => q == p

/-! ## The file parser (`EnvLoader::parse_and_decrypt`) -/

/-- Result of the surrounding-quote-stripping step: Rust slices
`value[1..value.len()-1]`, which panics when the trimmed value is a
single quote character (slice start 1 past slice end 0).  The quote
characters are ASCII, so byte indices 1 and `len-1` are char boundaries
and the byte slice equals the char slice. -/
inductive StripRes where
  | val (l : List Char)
  | panic

/-- The quote-stripping step of `parse_and_decrypt`. -/
def stripQuotes (v : List Char) : StripRes :=
  if (v.head? = some dq ∧ v.getLast? = some dq) ∨ (v.head? = some sq ∧ v.getLast? = some sq) then
    if 2 ≤ v.length then .val (v.drop 1).dropLast else .panic
  else .val v

/-- One pass over the lines of an env file: skip blanks and comments,
split on the first `=`, trim, strip one layer of surrounding quotes,
decrypt, insert.  `lineNum` is the 0-based index of the current line. -/
def parseGo (decB : List Nat → Except String String)
    (armorDec : String → Except String String) (path : String) :
    List (List Char) → Nat → VarMap → RResult VarMap
  | [], _, m => .ok m
  | line :: rest, lineNum, m =>
    let l := trimL line
    if l = [] ∨ l.head? = some '#' then parseGo decB armorDec path rest (lineNum + 1) m
    else
      match splitOnceChar '=' l with
      | none => parseGo decB armorDec path rest (lineNum + 1) m
      | some (k, v) =>
        let key := String.mk (trimL k)
        match stripQuotes (trimL v) with
        | .panic => .panicked "byte index out of bounds in str slice"
        | .val v' =>
          match decrypt_value decB armorDec (String.mk v') with
          | .error _ =>
            .err (.EnvFileParseFailed path
              ("line " ++ toString (lineNum + 1) ++ " for " ++ key))
          | .ok d => parseGo decB armorDec path rest (lineNum + 1) (insertV m key d)

/-- `EnvLoader::parse_and_decrypt`.  The parse-failure reason string
elides the inner error's display text. -/
def parse_and_decrypt (decB : List Nat → Except String String)
    (armorDec : String → Except String String) (content : String) (path : String) :
    RResult VarMap :=
  parseGo decB armorDec path (rustLines content.toList) 0 emptyV

/-! ## Directory model and file lookup -/

/-- A directory: file entries (name, content) in directory-read order. -/
abbrev Dir := List (String × String)

/-- The entry names of a directory. -/
def dirNames (dir : Dir) : List String :=
  dir.map fun entry => entry.1

/-- `EnvLoader::find_file_case_insensitive`: the first directory entry
whose lowercased name equals the lowercased target; the returned path is
the entry's own (original-case) name. -/
def find_file_case_insensitive (dir : Dir) (filename : String) : Option String :=
  (dir.find? fun entry => strLower entry.1 == strLower filename).map fun entry => entry.1

/-- `Path::exists` for a path produced from a directory entry. -/
def fileExists (dir : Dir) (p : String) : Bool :=
  dir.any fun entry => entry.1 == p

/-- `std::fs::read_to_string` for an exact file name. -/
def readFileExact (dir : Dir) (name : String) : Option String :=
  (dir.find? fun entry => entry.1 == name).map fun entry => entry.2

/-- `EnvLoader::add_exact_if_exist`: push the case-insensitive match if
present and not already in the list. -/
def add_exact_if_exist (dir : Dir) (paths : List String) (filename : String) : List String :=
  match find_file_case_insensitive dir filename with
  | some p => if memB p paths then paths else paths ++ [p]
  | none => paths

/-- `EnvLoader::load_env_file`: read (exact name, as produced by the
candidate search) and parse. -/
def load_env_file (decB : List Nat → Except String String)
    (armorDec : String → Except String String) (dir : Dir) (path : String) :
    RResult VarMap :=
  match readFileExact dir path with
  | none => .err (.EnvFileReadFailed path "read failed")
  | some content => parse_and_decrypt decB armorDec content path

/-- The parsed variable map of a file, defaulting to empty when the file
is absent or fails to parse (used only to state properties about files
that did parse). -/
def fileVarsOf (decB : List Nat → Except String String)
    (armorDec : String → Except String String) (dir : Dir) (path : String) : VarMap :=
  match load_env_file decB armorDec dir path with
  | .ok m => m
  | _ => emptyV

/-! ## Dimension resolvers (src/loader.rs) -/

/-- Canonical architectures (`enum Arch`). -/
inductive Arch where
  | Amd64 | Arm64 | Arm | I386 | Riscv64 | Ppc64le | S390x
deriving DecidableEq

/-- `Arch::as_str`. -/
def Arch.as_str : Arch → String
  | .Amd64 => "amd64"
  | .Arm64 => "arm64"
  | .Arm => "arm"
  | .I386 => "i386"
  | .Riscv64 => "riscv64"
  | .Ppc64le => "ppc64le"
  | .S390x => "s390x"

/-- `Arch::from_str` (lowercases, then matches the alias table). -/
def Arch.fromStr (s : String) : Option Arch :=
  match strLower s with
  | "amd64" => some .Amd64
  | "x64" => some .Amd64
  | "x86_64" => some .Amd64
  | "arm64" => some .Arm64
  | "aarch64" => some .Arm64
  | "arm" => some .Arm
  | "armv7" => some .Arm
  | "armv7l" => some .Arm
  | "armhf" => some .Arm
  | "i386" => some .I386
  | "i686" => some .I386
  | "x86" => some .I386
  | "riscv64" => some .Riscv64
  | "riscv64gc" => some .Riscv64
  | "ppc64le" => some .Ppc64le
  | "powerpc64le" => some .Ppc64le
  | "s390x" => some .S390x
  | _ => none

/-- Canonical operating systems (`enum Os`). -/
inductive Os where
  | Linux | Macos | Windows | Freebsd | Openbsd | Netbsd | Android | Ios
deriving DecidableEq

/-- `Os::as_str`. -/
def Os.as_str : Os → String
  | .Linux => "linux"
  | .Macos => "macos"
  | .Windows => "windows"
  | .Freebsd => "freebsd"
  | .Openbsd => "openbsd"
  | .Netbsd => "netbsd"
  | .Android => "android"
  | .Ios => "ios"

/-- `Os::from_str`. -/
def Os.fromStr (s : String) : Option Os :=
  match strLower s with
  | "linux" => some .Linux
  | "macos" => some .Macos
  | "darwin" => some .Macos
  | "osx" => some .Macos
  | "windows" => some .Windows
  | "win32" => some .Windows
  | "win" => some .Windows
  | "freebsd" => some .Freebsd
  | "openbsd" => some .Openbsd
  | "netbsd" => some .Netbsd
  | "android" => some .Android
  | "ios" => some .Ios
  | _ => none

/-- `EnvLoader::resolve_env`: first non-empty of the four ENV source
variables, lowercased, defaulting to `"local"`. -/
def resolve_env (e : EnvState) : String :=
  match
    orO (varNE e "DOTENVAGE_ENV")
      (orO (varNE e "EKG_ENV") (orO (varNE e "VERCEL_ENV") (varNE e "NODE_ENV"))) with
  | some v => strLower v
  | none => "local"

/-- `EnvLoader::resolve_arch`.  Sources in priority order, including the
target-triple and Docker-platform parses; recognized values normalize
through `Arch::from_str`, unknown values pass through lowercased. -/
def resolve_arch (e : EnvState) : Option String :=
  match
    orO (varNE e "DOTENVAGE_ARCH")
      (orO (varNE e "EKG_ARCH")
        (orO (varNE e "CARGO_CFG_TARGET_ARCH")
          (orO ((varNE e "TARGET").bind fun t =>
              ((splitOnChar '-' t.toList).get? 0).map String.mk)
            (orO (varNE e "TARGETARCH")
              (orO ((varNE e "TARGETPLATFORM").bind fun p =>
                  ((splitOnChar '/' p.toList).get? 1).map String.mk)
                (varNE e "RUNNER_ARCH")))))) with
  | none => none
  | some arch =>
    some
      (match Arch.fromStr arch with
       | some a => a.as_str
       | none => strLower arch)

/-- `EnvLoader::resolve_os`.  The final fallback is the compile-time
constant `std::env::consts::OS`, supplied here as the parameter
`osConst`; the chain therefore always resolves. -/
def resolve_os (osConst : String) (e : EnvState) : Option String :=
  match
    orO (varNE e "DOTENVAGE_OS")
      (orO (varNE e "EKG_OS")
        (orO (varNE e "CARGO_CFG_TARGET_OS")
          (orO ((varNE e "TARGET").bind fun t =>
              ((splitOnChar '-' t.toList).get? 2).map String.mk)
            (orO (varNE e "RUNNER_OS") (some osConst))))) with
  | none => none
  | some os =>
    some
      (match Os.fromStr os with
       | some o => o.as_str
       | none => strLower os)

/-- `EnvLoader::resolve_user`. -/
def resolve_user (e : EnvState) : Option String :=
  (orO (varNE e "DOTENVAGE_USER")
    (orO (varNE e "EKG_USER")
      (orO (varNE e "GITHUB_ACTOR")
        (orO (varNE e "GITHUB_TRIGGERING_ACTOR")
          (orO (varNE e "GITHUB_REPOSITORY_OWNER")
            (orO (varNE e "USER") (varNE e "USERNAME"))))))).map strLower

/-- `EnvLoader::resolve_variant`. -/
def resolve_variant (e : EnvState) : Option String :=
  (orO (varNE e "DOTENVAGE_VARIANT")
    (orO (varNE e "EKG_VARIANT") (varNE e "VARIANT"))).map strLower

/-- The character list following the first occurrence of `/pull/`
(`str::find` + slice), or `none` when the marker is absent. -/
def afterPull : List Char → Option (List Char)
  | [] => none
  | c :: rest =>
    if startsWithL "/pull/".toList (c :: rest) then some ((c :: rest).drop 6)
    else afterPull rest

/-- The digit run following the first `/pull/` marker of a ref string,
nonempty or `none` (the `GITHUB_REF` fallback of
`resolve_pr_number`). -/
def prFromRef (gref : String) : Option String :=
  match afterPull gref.toList with
  | some rest =>
    let ds := rest.takeWhile fun c => c.isDigit
    if ds = [] then none else some (String.mk ds)
  | none => none

/-- `EnvLoader::resolve_pr_number`: the `PR_NUMBER` variable gated on
`GITHUB_EVENT_NAME` starting with `pull_request`, then the ungated
`GITHUB_REF` parse. -/
def resolve_pr_number (e : EnvState) : Option String :=
  match
    (match e "GITHUB_EVENT_NAME" with
     | some ev =>
       if startsWithL "pull_request".toList ev.toList then varNE e "PR_NUMBER" else none
     | none => none) with
  | some pr => some pr
  | none =>
    match e "GITHUB_REF" with
    | some gref => prFromRef gref
    | none => none

/-! ## ENV discovery from the `.env` file (pre-resolution fallback) -/

/-- `EnvLoader::find_key_value_in_content`: scan the lines for
`key=value`; a non-comment line without `=` aborts the whole scan (the
`?` on `split_once`); the value is trimmed, then stripped of all leading
and trailing double quotes, then of all single quotes; empty and
encrypted values are skipped. -/
def find_key_value_in_content (content : String) (key : String) : Option String :=
  go (rustLines content.toList)
where
  /-- Line scanner for `find_key_value_in_content`. -/
  go : List (List Char) → Option String
  | [] => none
  | line :: rest =>
    let l := trimL line
    if l = [] ∨ l.head? = some '#' then go rest
    else
      match splitOnceChar '=' l with
      | none => none
      | some (lk, v) =>
        let lk := trimL lk
        let v := trimMatchesL sq (trimMatchesL dq (trimL v))
        if lk ≠ key.toList ∨ v = [] then go rest
        else if is_encrypted (String.mk v) then go rest
        else some (String.mk v)

/-- The ENV-dimension source keys, in priority order. -/
def envKeys : List String := ["DOTENVAGE_ENV", "EKG_ENV", "VERCEL_ENV", "NODE_ENV"]

/-- `EnvLoader::find_env_config_in_file` (applied to already-read
content): first ENV source key with a plaintext value in the file. -/
def find_env_config_in_file (content : String) : Option (String × String) :=
  envKeys.findSome? fun k => (find_key_value_in_content content k).map fun v => (k, v)

/-- `EnvLoader::discover_env_from_env_file`: when no ENV source variable
is set at all, read the literal `.env` file and set the first plaintext
ENV config pair found in it. -/
def discover_env_from_env_file (dir : Dir) (e : EnvState) : EnvState :=
  if (e "DOTENVAGE_ENV").isSome ∨ (e "EKG_ENV").isSome ∨ (e "VERCEL_ENV").isSome ∨
      (e "NODE_ENV").isSome then e
  else
    match readFileExact dir ".env" with
    | none => e
    | some content =>
      match find_env_config_in_file content with
      | some kv => envSet e kv.1 kv.2
      | none => e

/-! ## Candidate path generation (`EnvLoader::resolve_env_paths`) -/

/-- The dimension parts selected by a bitmask (bit 0 = ENV, 1 = OS,
2 = ARCH, 3 = USER, 4 = VARIANT), `none` when the mask needs an
unresolved dimension (the `continue` in the Rust loop). -/
def maskParts (mask : Nat) (env : String) (os arch user variant : Option String) :
    Option (List String) := do
  let p1 := if mask &&& 1 ≠ 0 then [env] else []
  let p2 ← if mask &&& 2 ≠ 0 then os.map fun o => [o] else some []
  let p3 ← if mask &&& 4 ≠ 0 then arch.map fun a => [a] else some []
  let p4 ← if mask &&& 8 ≠ 0 then user.map fun u => [u] else some []
  let p5 ← if mask &&& 16 ≠ 0 then variant.map fun v => [v] else some []
  some (p1 ++ p2 ++ p3 ++ p4 ++ p5)

/-- One step of the power-set loop: join the parts with dots and add the
file when it exists. -/
def addMask (dir : Dir) (env : String) (os arch user variant : Option String)
    (acc : List String) (mask : Nat) : List String :=
  match maskParts mask env os arch user variant with
  | some parts => add_exact_if_exist dir acc (".env." ++ String.intercalate "." parts)
  | none => acc

/-- The masks `1..32` of the Rust `for` loop. -/
def maskList : List Nat :=
  [1, 2, 3, 4, 5, 6, 7, 8, 9, 10, 11, 12, 13, 14, 15, 16,
   17, 18, 19, 20, 21, 22, 23, 24, 25, 26, 27, 28, 29, 30, 31]

/-- `EnvLoader::resolve_env_paths`.  Note the process-environment
mutation: `discover_env_from_env_file` may set an ENV source variable,
and the updated environment is both used for resolution and left in
place, so the function returns the possibly-updated environment. -/
def resolve_env_paths (osConst : String) (dir : Dir) (e : EnvState) :
    List String × EnvState :=
  let paths := add_exact_if_exist dir [] ".env"
  let e := discover_env_from_env_file dir e
  let env := resolve_env e
  let os := resolve_os osConst e
  let arch := resolve_arch e
  let user := resolve_user e
  let variant := resolve_variant e
  let paths := maskList.foldl (addMask dir env os arch user variant) paths
  let paths :=
    match resolve_pr_number e with
    | some pr => add_exact_if_exist dir paths (".env.pr-" ++ pr)
    | none => paths
  (paths, e)

/-! ## Dynamic dimension discovery from loaded variables -/

/-- OS-dimension source keys. -/
def osKeys : List String := ["DOTENVAGE_OS", "EKG_OS"]

/-- ARCH-dimension source keys. -/
def archKeys : List String := ["DOTENVAGE_ARCH", "EKG_ARCH"]

/-- USER-dimension source keys. -/
def userKeys : List String := ["DOTENVAGE_USER", "EKG_USER"]

/-- VARIANT-dimension source keys. -/
def variantKeys : List String := ["DOTENVAGE_VARIANT", "EKG_VARIANT", "VARIANT"]

/-- One dimension block of `discover_dimensions_from_vars`: nothing when
some source key is already set (non-empty) in the environment, else the
first source key with a non-empty, non-encrypted value in the loaded
map. -/
def dimDiscover (vars : VarMap) (e : EnvState) (keys : List String) :
    List (String × String) :=
  if keys.any fun k => (varNE e k).isSome then []
  else
    match
      keys.findSome? fun k =>
        match vars k with
        | some v => if v ≠ "" ∧ ¬is_encrypted v then some (k, v) else none
        | none => none with
    | some p => [p]
    | none => []

/-- `EnvLoader::discover_dimensions_from_vars`. -/
def discover_dimensions_from_vars (vars : VarMap) (e : EnvState) :
    List (String × String) :=
  dimDiscover vars e envKeys ++ dimDiscover vars e osKeys ++ dimDiscover vars e archKeys ++
    dimDiscover vars e userKeys ++ dimDiscover vars e variantKeys

/-- Apply a batch of discovered pairs with `std::env::set_var`. -/
def applyEnvPairs (e : EnvState) (ps : List (String × String)) : EnvState :=
  ps.foldl (fun e p => envSet e p.1 p.2) e

/-! ## Save/restore of dimension variables (non-mutating variant) -/

/-- The thirteen keys saved by `save_dimension_env_vars`. -/
def dimSaveKeys : List String :=
  ["DOTENVAGE_ENV", "EKG_ENV", "VERCEL_ENV", "NODE_ENV",
   "DOTENVAGE_OS", "EKG_OS", "DOTENVAGE_ARCH", "EKG_ARCH",
   "DOTENVAGE_USER", "EKG_USER", "DOTENVAGE_VARIANT", "EKG_VARIANT", "VARIANT"]

/-- `EnvLoader::save_dimension_env_vars`. -/
def save_dimension_env_vars (e : EnvState) : List (String × Option String) :=
  dimSaveKeys.map fun k => (k, e k)

/-- `EnvLoader::restore_dimension_env_vars`. -/
def restore_dimension_env_vars (saved : List (String × Option String)) (e : EnvState) :
    EnvState :=
  saved.foldl
    (fun e kv =>
      match kv.2 with
      | some v => envSet e kv.1 v
      | none => envRemove e kv.1)
    e

/-! ## The dynamic-discovery fixpoint loop -/

/-- Mutable state of the loop: the process environment, the merged map,
and the loaded files in load order (the Rust code keeps a `HashSet` and,
in the collect variant, a parallel `Vec`; a single duplicate-free list
serves as both). -/
structure LoopState where
  env : EnvState
  vars : VarMap
  order : List String

/-- The `loop` of `load_from_dir` / `collect_all_vars_from_dir`:
recompute candidates, pick the first unloaded existing one, halt when
there is none, otherwise load it, merge, and discover new dimensions.
`fuel` bounds the recursion; `none` means the fuel ran out, which the
termination theorem shows cannot happen from any reachable state when
the fuel exceeds the number of directory entries. -/
def loadLoop (decB : List Nat → Except String String)
    (armorDec : String → Except String String) (osConst : String) (dir : Dir) :
    Nat → LoopState → Option (ROut × LoopState)
  | 0, _ => none
  | fuel + 1, st =>
    let r := resolve_env_paths osConst dir st.env
    match r.1.find? fun p => !memB p st.order && fileExists dir p with
    | none => some (.ok, { st with env := r.2 })
    | some p =>
      match load_env_file decB armorDec dir p with
      | .err e => some (.err e, { st with env := r.2 })
      | .panicked m => some (.panicked m, { st with env := r.2 })
      | .ok m =>
        loadLoop decB armorDec osConst dir fuel
          { env := applyEnvPairs r.2 (discover_dimensions_from_vars m r.2),
            vars := extendV st.vars m,
            order := st.order ++ [p] }

/-- The common seed step: load the base `.env` (if present) and set the
dimension pairs discovered in it. -/
def seedState (decB : List Nat → Except String String)
    (armorDec : String → Except String String) (dir : Dir) (e0 : EnvState) :
    RResult LoopState :=
  match find_file_case_insensitive dir ".env" with
  | some p0 =>
    match load_env_file decB armorDec dir p0 with
    | .ok m =>
      .ok
        { env := applyEnvPairs e0 (discover_dimensions_from_vars m e0),
          vars := extendV emptyV m,
          order := [p0] }
    | .err e => .err e
    | .panicked s => .panicked s
  | none => .ok { env := e0, vars := emptyV, order := [] }

/-- Full result of `collect_all_vars_from_dir`: the outcome, the merged
map and load order (meaningful on `ok`; on an error they hold the
internal partial state, which Rust drops), and the final process
environment. -/
structure CollectRes where
  out : ROut
  vars : VarMap
  order : List String
  env : EnvState

/-- `EnvLoader::collect_all_vars_from_dir`: save the dimension
variables, seed, run the loop, and restore — but the restore runs only
on the success path, because the Rust `?` operator returns an error
before reaching the restore call. -/
def collect_all_vars_from_dir (decB : List Nat → Except String String)
    (armorDec : String → Except String String) (osConst : String) (dir : Dir)
    (e0 : EnvState) : CollectRes :=
  let saved := save_dimension_env_vars e0
  match seedState decB armorDec dir e0 with
  | .err e => ⟨.err e, emptyV, [], e0⟩
  | .panicked s => ⟨.panicked s, emptyV, [], e0⟩
  | .ok st =>
    match loadLoop decB armorDec osConst dir (dir.length + 1) st with
    | none => ⟨.panicked "unreachable: fuel exhausted", st.vars, st.order, st.env⟩
    | some (.ok, st') =>
      ⟨.ok, st'.vars, st'.order, restore_dimension_env_vars saved st'.env⟩
    | some (.err e, st') => ⟨.err e, st'.vars, st'.order, st'.env⟩
    | some (.panicked m, st') => ⟨.panicked m, st'.vars, st'.order, st'.env⟩

/-- `EnvLoader::load_from_dir`: same seed and loop, no save/restore, and
on success every accumulated variable is exported into the process
environment. -/
def load_from_dir (decB : List Nat → Except String String)
    (armorDec : String → Except String String) (osConst : String) (dir : Dir)
    (e0 : EnvState) : ROut × EnvState :=
  match seedState decB armorDec dir e0 with
  | .err e => (.err e, e0)
  | .panicked s => (.panicked s, e0)
  | .ok st =>
    match loadLoop decB armorDec osConst dir (dir.length + 1) st with
    | none => (.panicked "unreachable: fuel exhausted", st.env)
    | some (.ok, st') =>
      (.ok, fun k =>
        match st'.vars k with
        | some v => some v
        | none => st'.env k)
    | some (.err e, st') => (.err e, st'.env)
    | some (.panicked m, st') => (.panicked m, st'.env)

/-! ## Helper lemmas: prefix/suffix stripping and trimming -/

theorem stripPfxL_append (p r : List Char) : stripPfxL p (p ++ r) = some r := by
  induction p with
  | nil => rfl
  | cons c cs ih => simp [stripPfxL, ih]

theorem stripSfxL_append (x s : List Char) : stripSfxL s (x ++ s) = some x := by
  simp [stripSfxL, List.reverse_append, stripPfxL_append]

theorem trimL_notWs_wrap (c1 c2 : Char) (mid : List Char)
    (h1 : c1.isWhitespace = false) (h2 : c2.isWhitespace = false) :
    trimL (c1 :: (mid ++ [c2])) = c1 :: (mid ++ [c2]) := by
  unfold trimL
  rw [List.dropWhile_cons]
  simp only [h1, Bool.false_eq_true, if_false]
  rw [show (c1 :: (mid ++ [c2])).reverse = c2 :: (mid.reverse ++ [c1]) by simp]
  rw [List.dropWhile_cons]
  simp only [h2, Bool.false_eq_true, if_false]
  simp

/-! ## Helper lemmas: base64 round trip -/

theorem charToSextet_sextetToChar : ∀ n < 64, charToSextet (sextetToChar n) = some n := by
  decide

theorem sextetToChar_ne_pad : ∀ n < 64, ¬sextetToChar n = '=' := by
  decide

theorem b64_roundtrip (bs : List Nat) (hlt : ∀ b ∈ bs, b < 256) :
    b64DecodeChars (b64EncodeBytes bs) = some bs := by
  induction bs using b64EncodeBytes.induct with
  | case1 => rfl
  | case2 a =>
    have ha : a < 256 := hlt a (by simp)
    have e0 : charToSextet (sextetToChar (a / 4)) = some (a / 4) :=
      charToSextet_sextetToChar _ (by omega)
    have e1 : charToSextet (sextetToChar (a % 4 * 16)) = some (a % 4 * 16) :=
      charToSextet_sextetToChar _ (by omega)
    have h16 : a % 4 * 16 % 16 = 0 := by omega
    simp [b64EncodeBytes, b64DecodeChars, e0, e1, h16]
    omega
  | case3 a b =>
    have ha : a < 256 := hlt a (by simp)
    have hb : b < 256 := hlt b (by simp)
    have e0 : charToSextet (sextetToChar (a / 4)) = some (a / 4) :=
      charToSextet_sextetToChar _ (by omega)
    have e1 : charToSextet (sextetToChar (a % 4 * 16 + b / 16)) =
        some (a % 4 * 16 + b / 16) :=
      charToSextet_sextetToChar _ (by omega)
    have e2 : charToSextet (sextetToChar (b % 16 * 4)) = some (b % 16 * 4) :=
      charToSextet_sextetToChar _ (by omega)
    have hne : ¬sextetToChar (b % 16 * 4) = '=' := sextetToChar_ne_pad _ (by omega)
    have h4 : b % 16 * 4 % 4 = 0 := by omega
    simp [b64EncodeBytes, b64DecodeChars, e0, e1, e2, hne, h4]
    constructor
    · omega
    · omega
  | case4 a b c rest ih =>
    have ha : a < 256 := hlt a (by simp)
    have hb : b < 256 := hlt b (by simp)
    have hc : c < 256 := hlt c (by simp)
    have hrest : ∀ x ∈ rest, x < 256 := fun x hx => hlt x (by simp [hx])
    have e0 : charToSextet (sextetToChar (a / 4)) = some (a / 4) :=
      charToSextet_sextetToChar _ (by omega)
    have e1 : charToSextet (sextetToChar (a % 4 * 16 + b / 16)) =
        some (a % 4 * 16 + b / 16) :=
      charToSextet_sextetToChar _ (by omega)
    have e2 : charToSextet (sextetToChar (b % 16 * 4 + c / 64)) =
        some (b % 16 * 4 + c / 64) :=
      charToSextet_sextetToChar _ (by omega)
    have e3 : charToSextet (sextetToChar (c % 64)) = some (c % 64) :=
      charToSextet_sextetToChar _ (by omega)
    have hne2 : ¬sextetToChar (b % 16 * 4 + c / 64) = '=' :=
      sextetToChar_ne_pad _ (by omega)
    have hne3 : ¬sextetToChar (c % 64) = '=' := sextetToChar_ne_pad _ (by omega)
    simp [b64EncodeBytes, b64DecodeChars, e0, e1, e2, e3, hne2, hne3, ih hrest]
    refine ⟨by omega, by omega, by omega⟩

end Dotenvage

deriving instance DecidableEq for Except

namespace Dotenvage

/-! ## Cipher-level lemmas -/

theorem encrypt_value_toList (encB : String → List Nat) (P : String) :
    (encrypt_value encB P).toList = encTag ++ (b64EncodeBytes (encB P) ++ [']']) := by
  simp [encrypt_value, String.toList]

theorem encTag_cons : encTag = 'E' :: "NC[AGE:b64:".toList := by decide

theorem trimL_encrypt_value (encB : String → List Nat) (P : String) :
    trimL (encrypt_value encB P).toList = encTag ++ (b64EncodeBytes (encB P) ++ [']']) := by
  rw [encrypt_value_toList]
  have hshape : encTag ++ (b64EncodeBytes (encB P) ++ [']']) =
      'E' :: (("NC[AGE:b64:".toList ++ b64EncodeBytes (encB P)) ++ [']']) := by
    rw [encTag_cons]; simp
  rw [hshape, trimL_notWs_wrap _ _ _ (by decide) (by decide), ← hshape]

/-- C8: for every plaintext `P` and every manager holding a valid
identity (modelled by the age oracle pair `encB`/`decB` round-tripping
at `P` and producing genuine bytes), `decrypt_value` applied to
`encrypt_value P` succeeds and returns exactly `P`, and `is_encrypted`
holds of `encrypt_value P`. -/
theorem encrypt_value_roundtrip (encB : String → List Nat)
    (decB : List Nat → Except String String) (armorDec : String → Except String String)
    (P : String) (hlt : ∀ b ∈ encB P, b < 256) (hround : decB (encB P) = Except.ok P) :
    decrypt_value decB armorDec (encrypt_value encB P) = Except.ok P ∧
      is_encrypted (encrypt_value encB P) = true := by
  have htrim := trimL_encrypt_value encB P
  constructor
  · unfold decrypt_value
    simp only [htrim, stripPfxL_append, Option.some_bind, stripSfxL_append,
      b64_roundtrip (encB P) hlt, hround]
  · unfold is_encrypted startsWithL
    simp only [htrim, stripPfxL_append, Option.isSome_some, Bool.true_or]

/-- Witness for C8 at a concrete oracle and plaintext. -/
theorem encrypt_value_roundtrip_witness :
    decrypt_value (fun _ => Except.ok "hi") (fun _ => Except.error "e")
        (encrypt_value (fun _ => [1, 2, 3]) "hi") = Except.ok "hi" ∧
      is_encrypted (encrypt_value (fun _ => [1, 2, 3]) "hi") = true :=
  encrypt_value_roundtrip (fun _ => [1, 2, 3]) (fun _ => Except.ok "hi")
    (fun _ => Except.error "e") "hi" (by decide) rfl

/-- C7 counterexample: the value `ENC[AGE:b64:abc` is classified as
encrypted by `is_encrypted` (prefix check only) yet has a corrupted
envelope (missing closing bracket), and `decrypt_value` silently
returns it unchanged instead of a `DecryptionFailed` error — for any
decryption oracle, here one that always fails. -/
theorem decrypt_missing_bracket_passthrough :
    is_encrypted "ENC[AGE:b64:abc" = true ∧
      decrypt_value (fun _ => Except.error "f") (fun _ => Except.error "f")
          "ENC[AGE:b64:abc" =
        Except.ok "ENC[AGE:b64:abc" := by
  constructor
  · decide
  · decide

/-- C7 amended: a value whose trimmed form matches the *full* compact
envelope (tag and closing bracket) yields `DecryptionFailed` on invalid
base64 and on envelope-decryption failure; a value matching the armor
header (and not the compact envelope) yields `DecryptionFailed` when
the armored decryption fails.  A value carrying only the compact tag
without the closing bracket falls through (see the counterexample). -/
theorem decrypt_corrupted_envelope_fails
    (decB : List Nat → Except String String) (armorDec : String → Except String String)
    (v : String) :
    (∀ inner, (stripPfxL encTag (trimL v.toList)).bind (stripSfxL [']']) = some inner →
      (b64DecodeChars inner = none →
        decrypt_value decB armorDec v =
          Except.error (.DecryptionFailed "invalid base64")) ∧
      (∀ bs e, b64DecodeChars inner = some bs → decB bs = Except.error e →
        decrypt_value decB armorDec v = Except.error (.DecryptionFailed e))) ∧
    ((stripPfxL encTag (trimL v.toList)).bind (stripSfxL [']']) = none →
      startsWithL armorTag (trimL v.toList) = true →
      ∀ e, armorDec (String.mk (trimL v.toList)) = Except.error e →
        decrypt_value decB armorDec v = Except.error (.DecryptionFailed e)) := by
  constructor
  · intro inner hinner
    constructor
    · intro hb64
      unfold decrypt_value
      simp only [hinner, hb64]
    · intro bs e hb64 hdec
      unfold decrypt_value
      simp only [hinner, hb64, hdec]
  · intro hnone harmor e harm
    unfold decrypt_value
    simp only [String.toList] at hnone harmor harm
    simp [hnone, harmor, harm]

/-- Witness for the amended C7 at a concrete corrupted envelope. -/
theorem decrypt_corrupted_envelope_fails_witness :
    decrypt_value (fun _ => Except.error "f") (fun _ => Except.error "f")
        "ENC[AGE:b64:!]" =
      Except.error (.DecryptionFailed "invalid base64") :=
  ((decrypt_corrupted_envelope_fails (fun _ => Except.error "f")
      (fun _ => Except.error "f") "ENC[AGE:b64:!]").1 ['!'] (by decide)).1 (by decide)

/-- C9: the file parser is *not* total — on the line `KEY="` (value a
single double-quote character) the quote-stripping slice
`value[1..value.len()-1]` becomes `value[1..0]`, which panics in Rust;
the model records the panic. -/
theorem parse_single_quote_char_panics :
    (parse_and_decrypt (fun _ => Except.error "oracle") (fun _ => Except.error "oracle")
        (String.mk ['K', 'E', 'Y', '=', dq]) ".env").isPanicked = true := by
  decide

/-- C4 counterexample: with `GITHUB_EVENT_NAME` unset (no pull-request
event marker) but `GITHUB_REF` containing `/pull/123`,
`resolve_pr_number` still resolves to `123`; the claim says it must
resolve to none. -/
theorem resolve_pr_number_ungated_ref :
    resolve_pr_number
        (fun k => if k = "GITHUB_REF" then some "refs/pull/123/merge" else none) =
      some "123" := by
  decide

/-- C4 amended: the `pull_request` event gate applies only to the
`PR_NUMBER` variable source; when the gate fails (event absent or not a
pull-request event), `PR_NUMBER` is ignored and the result is exactly
the `/pull/<digits>` parse of `GITHUB_REF` — in particular none when
`GITHUB_REF` is absent or lacks such a segment. -/
theorem resolve_pr_number_gate_scope (e : EnvState)
    (hev : match e "GITHUB_EVENT_NAME" with
           | some ev => startsWithL "pull_request".toList ev.toList = false
           | none => True) :
    resolve_pr_number e =
      match e "GITHUB_REF" with
      | some gref => prFromRef gref
      | none => none := by
  cases hev' : e "GITHUB_EVENT_NAME" with
  | none =>
    unfold resolve_pr_number
    rw [hev']
  | some ev =>
    rw [hev'] at hev
    simp only at hev
    unfold resolve_pr_number
    rw [hev']
    simp only [String.toList] at hev ⊢
    simp [hev]

/-- Witness for the amended C4: event `push` with `PR_NUMBER` set and a
non-PR ref resolves to none. -/
theorem resolve_pr_number_gate_scope_witness :
    resolve_pr_number
        (fun k =>
          if k = "GITHUB_EVENT_NAME" then some "push"
          else if k = "PR_NUMBER" then some "999"
          else if k = "GITHUB_REF" then some "refs/heads/main" else none) = none := by
  rw [resolve_pr_number_gate_scope _
    (show startsWithL "pull_request".toList "push".toList = false by decide)]
  decide

/-- C6 counterexample: `resolve_env` passes an unrecognized source value
through lowercased, so with `DOTENVAGE_ENV=a.b` the resolved ENV value
contains the separator `.`; the claim says no resolved dimension value
ever does. -/
theorem resolve_env_dot_passthrough :
    resolve_env (fun k => if k = "DOTENVAGE_ENV" then some "a.b" else none) = "a.b" ∧
      ((resolve_env (fun k => if k = "DOTENVAGE_ENV" then some "a.b" else none)).toList.contains
          '.') = true := by
  constructor
  · decide
  · decide

/-- Whether a string avoids both filename separators. -/
def sepFree (s : String) : Bool :=
  s.toList.all fun c => !(c == '.' || c == '-')

/-- C6 amended: the *normalization tables'* outputs — the canonical
`Arch` and `Os` names — and the ENV default `local` contain neither `.`
nor `-`; a value that merely passes through an unrecognized source
string lowercased may contain both (see the counterexample). -/
theorem canonical_tables_sep_free :
    (∀ a : Arch, sepFree a.as_str = true) ∧ (∀ o : Os, sepFree o.as_str = true) ∧
      sepFree "local" = true := by
  refine ⟨fun a => ?_, fun o => ?_, by decide⟩
  · cases a <;> decide
  · cases o <;> decide

/-- C10: `resolve_env_paths` has a persistent side effect on the ambient
environment: if no ENV source variable is set and the `.env` file
contains a plaintext ENV configuration pair `(k, v)`, then after
`resolve_env_paths` returns, `k` is set to `v` in the process
environment. -/
theorem resolve_env_paths_mutates_env (osConst : String) (dir : Dir) (e0 : EnvState)
    (c k v : String)
    (h0 : ∀ key ∈ envKeys, e0 key = none)
    (hread : readFileExact dir ".env" = some c)
    (hfind : find_env_config_in_file c = some (k, v)) :
    (resolve_env_paths osConst dir e0).2 k = some v := by
  have h1 : e0 "DOTENVAGE_ENV" = none := h0 _ (by simp [envKeys])
  have h2 : e0 "EKG_ENV" = none := h0 _ (by simp [envKeys])
  have h3 : e0 "VERCEL_ENV" = none := h0 _ (by simp [envKeys])
  have h4 : e0 "NODE_ENV" = none := h0 _ (by simp [envKeys])
  have hdisc : discover_env_from_env_file dir e0 = envSet e0 k v := by
    unfold discover_env_from_env_file
    simp [h1, h2, h3, h4, hread, hfind]
  rw [show (resolve_env_paths osConst dir e0).2 = discover_env_from_env_file dir e0 from
    rfl, hdisc]
  simp [envSet]

/-- Witness for C10: a `.env` containing `NODE_ENV=production` leaves
`NODE_ENV` set after `resolve_env_paths` returns. -/
theorem resolve_env_paths_mutates_env_witness :
    (resolve_env_paths "linux" [(".env", "NODE_ENV=production")] (fun _ => none)).2
        "NODE_ENV" = some "production" :=
  resolve_env_paths_mutates_env "linux" [(".env", "NODE_ENV=production")] (fun _ => none)
    "NODE_ENV=production" "NODE_ENV" "production" (fun _ _ => rfl) (by decide) (by decide)

/-- C5: with ENV=prod, ARCH=amd64, USER=alice resolved and the
dash-separated files `.env.prod`, `.env.prod-alice`,
`.env.prod-amd64-alice` on disk, `resolve_env_paths` yields only
`.env.prod`: candidates are always dot-joined, so the dash-named files
(which the crate's own doc comment and tests promise to match) are
never candidates. -/
theorem resolve_env_paths_ignores_dash_names :
    (resolve_env_paths "linux"
        [(".env.prod", "A=1"), (".env.prod-alice", "A=2"),
         (".env.prod-amd64-alice", "A=3")]
        (fun k =>
          if k = "DOTENVAGE_ENV" then some "prod"
          else if k = "DOTENVAGE_ARCH" then some "amd64"
          else if k = "DOTENVAGE_USER" then some "alice" else none)).1 =
      [".env.prod"] := by
  decide

/-- C3: `collect_all_vars_from_dir` does *not* restore the dimension
variables on the error path.  With `.env` discovering
`NODE_ENV=production` and `.env.production` failing to parse (corrupt
encrypted value), the call returns an error and leaves `NODE_ENV` set
in the ambient environment, although it was unset before the call. -/
theorem collect_error_skips_restore :
    ((collect_all_vars_from_dir (fun _ => Except.error "oracle")
          (fun _ => Except.error "oracle") "linux"
          [(".env", "NODE_ENV=production"), (".env.production", "X=ENC[AGE:b64:!]")]
          (fun _ => none)).out.isErr = true) ∧
      ((collect_all_vars_from_dir (fun _ => Except.error "oracle")
          (fun _ => Except.error "oracle") "linux"
          [(".env", "NODE_ENV=production"), (".env.production", "X=ENC[AGE:b64:!]")]
          (fun _ => none)).env "NODE_ENV" = some "production") := by
  constructor
  · decide
  · decide

/-! ## Merge lemmas for the accumulated variable map -/

/-- Fold a list of file maps over an initial map with `extendV` (the
loop's `env_vars.extend(vars)` steps). -/
def mergeAll (m0 : VarMap) (l : List VarMap) : VarMap :=
  l.foldl extendV m0

theorem mergeAll_append (m0 : VarMap) (a b : List VarMap) :
    mergeAll m0 (a ++ b) = mergeAll (mergeAll m0 a) b := by
  simp [mergeAll, List.foldl_append]

theorem mergeAll_none (m0 : VarMap) (l : List VarMap) (k : String)
    (h : ∀ x ∈ l, x k = none) : mergeAll m0 l k = m0 k := by
  induction l generalizing m0 with
  | nil => rfl
  | cons x t ih =>
    have hx : x k = none := h x (by simp)
    rw [show mergeAll m0 (x :: t) = mergeAll (extendV m0 x) t from rfl,
      ih (extendV m0 x) fun y hy => h y (by simp [hy])]
    simp [extendV, hx]

theorem extendV_isSome (m0 x : VarMap) (k : String) (h : (m0 k).isSome) :
    (extendV m0 x k).isSome := by
  unfold extendV
  cases hx : x k <;> simp [hx, h]

theorem mergeAll_isSome_mono (l : List VarMap) (m0 : VarMap) (k : String)
    (h : (m0 k).isSome) : (mergeAll m0 l k).isSome := by
  induction l generalizing m0 with
  | nil => exact h
  | cons x t ih =>
    exact ih (extendV m0 x) (extendV_isSome m0 x k h)

theorem mergeAll_mem_isSome (l : List VarMap) (m0 x : VarMap) (k : String)
    (hx : x ∈ l) (h : (x k).isSome) : (mergeAll m0 l k).isSome := by
  induction l generalizing m0 with
  | nil => cases hx
  | cons y t ih =>
    rcases List.mem_cons.mp hx with rfl | hmem
    · refine mergeAll_isSome_mono t (extendV m0 x) k ?_
      unfold extendV
      cases hk : x k with
      | none => rw [hk] at h; cases h
      | some v => simp [hk]
    · exact ih (extendV m0 y) hmem

theorem mergeAll_last_some (m0 : VarMap) (a b : List VarMap) (x : VarMap) (k v : String)
    (hx : x k = some v) (hb : ∀ y ∈ b, y k = none) :
    mergeAll m0 (a ++ x :: b) k = some v := by
  rw [mergeAll_append,
    show mergeAll (mergeAll m0 a) (x :: b) = mergeAll (extendV (mergeAll m0 a) x) b from
      rfl,
    mergeAll_none _ _ _ hb]
  simp [extendV, hx]

/-! ## Termination of the discovery loop -/

theorem memB_iff (p : String) (l : List String) : memB p l = true ↔ p ∈ l := by
  simp [memB, List.any_eq_true]

theorem fileExists_mem (dir : Dir) (p : String) (h : fileExists dir p = true) :
    p ∈ dirNames dir := by
  simp only [fileExists, List.any_eq_true, beq_iff_eq] at h
  obtain ⟨entry, hmem, heq⟩ := h
  exact heq ▸ List.mem_map_of_mem _ hmem

theorem nodup_subset_length_le (l names : List String) (hn : l.Nodup)
    (hsub : ∀ p ∈ l, p ∈ names) : l.length ≤ names.toFinset.card := by
  classical
  have h1 : l.toFinset.card = l.length := List.toFinset_card_of_nodup hn
  have h2 : l.toFinset ⊆ names.toFinset := fun x hx =>
    List.mem_toFinset.mpr (hsub x (List.mem_toFinset.mp hx))
  calc l.length = l.toFinset.card := h1.symm
    _ ≤ names.toFinset.card := Finset.card_le_card h2

/-- C2: the fixpoint loop of `load_from_dir` / `collect_all_vars_from_dir`
terminates from every state whose visited list is duplicate-free and
drawn from the directory: each iteration either halts or consumes one
previously-unvisited existing file, so any fuel exceeding the number of
distinct files on disk (minus those already visited) suffices — in
particular the loop never exhausts the `|dir| + 1` fuel the loader
gives it. -/
theorem loadLoop_terminates (decB : List Nat → Except String String)
    (armorDec : String → Except String String) (osConst : String) (dir : Dir) :
    ∀ fuel st, st.order.Nodup → (∀ p ∈ st.order, p ∈ dirNames dir) →
      (dirNames dir).toFinset.card < fuel + st.order.length →
      (loadLoop decB armorDec osConst dir fuel st).isSome = true := by
  intro fuel
  induction fuel with
  | zero =>
    intro st hn hsub hcard
    exfalso
    have := nodup_subset_length_le st.order (dirNames dir) hn hsub
    omega
  | succ n ih =>
    intro st hn hsub hcard
    cases hfind : (resolve_env_paths osConst dir st.env).1.find?
        (fun p => !memB p st.order && fileExists dir p) with
    | none => simp [loadLoop, hfind]
    | some p =>
      have hp := List.find?_some hfind
      rw [Bool.and_eq_true, Bool.not_eq_true'] at hp
      have hnotmem : p ∉ st.order := fun hmem => by
        rw [(memB_iff p st.order).mpr hmem] at hp
        exact absurd hp.1 (by simp)
      have hpdir : p ∈ dirNames dir := fileExists_mem dir p hp.2
      simp only [loadLoop, hfind]
      cases hload : load_env_file decB armorDec dir p with
      | err e => simp
      | panicked m => simp
      | ok m =>
        apply ih
        · simpa [List.nodup_append] using ⟨hn, hnotmem⟩
        · intro q hq
          rcases List.mem_append.mp hq with hq | hq
          · exact hsub q hq
          · simp at hq
            exact hq ▸ hpdir
        · simp only [List.length_append, List.length_cons, List.length_nil]
          omega

/-- Witness for C2: the loop from the empty state over a one-file
directory with fuel 2 returns. -/
theorem loadLoop_terminates_witness :
    (loadLoop (fun _ => Except.error "oracle") (fun _ => Except.error "oracle") "linux"
        [(".env", "A=1")] 2 ⟨fun _ => none, emptyV, []⟩).isSome = true :=
  loadLoop_terminates (fun _ => Except.error "oracle") (fun _ => Except.error "oracle")
    "linux" [(".env", "A=1")] 2 ⟨fun _ => none, emptyV, []⟩ (by simp) (by simp) (by decide)

/-! ## Lemmas for dynamic ENV discovery (claim C1) -/

theorem ffci_exists (dir : Dir) (n p : String)
    (h : find_file_case_insensitive dir n = some p) : fileExists dir p = true := by
  unfold find_file_case_insensitive at h
  rw [Option.map_eq_some'] at h
  obtain ⟨entry, hfind, hp⟩ := h
  have hmem := List.mem_of_find?_eq_some hfind
  simp only [fileExists, List.any_eq_true]
  exact ⟨entry, hmem, by simp [hp]⟩

theorem discover_env_noop (dir : Dir) (e : EnvState) (x : String)
    (h : e "NODE_ENV" = some x) : discover_env_from_env_file dir e = e := by
  unfold discover_env_from_env_file
  simp [h]

theorem resolve_env_production (e : EnvState)
    (h1 : e "DOTENVAGE_ENV" = none) (h2 : e "EKG_ENV" = none) (h3 : e "VERCEL_ENV" = none)
    (h4 : e "NODE_ENV" = some "production") : resolve_env e = "production" := by
  unfold resolve_env varNE orO
  rw [h1, h2, h3, h4]
  decide

theorem add_exact_mem_of_found (dir : Dir) (acc : List String) (n p : String)
    (h : find_file_case_insensitive dir n = some p) :
    p ∈ add_exact_if_exist dir acc n := by
  unfold add_exact_if_exist
  rw [h]
  dsimp only
  cases hm : memB p acc with
  | true =>
    simp only [if_pos rfl]
    exact (memB_iff p acc).mp hm
  | false =>
    simp

theorem add_exact_mem_mono (dir : Dir) (acc : List String) (n x : String)
    (h : x ∈ acc) : x ∈ add_exact_if_exist dir acc n := by
  unfold add_exact_if_exist
  cases find_file_case_insensitive dir n with
  | none => exact h
  | some p =>
    dsimp only
    split
    · exact h
    · simp [h]

theorem addMask_mem_mono (dir : Dir) (env : String) (os arch user variant : Option String)
    (acc : List String) (mask : Nat) (x : String) (h : x ∈ acc) :
    x ∈ addMask dir env os arch user variant acc mask := by
  unfold addMask
  cases maskParts mask env os arch user variant with
  | none => exact h
  | some parts => exact add_exact_mem_mono _ _ _ _ h

theorem foldl_addMask_mem_mono (dir : Dir) (env : String)
    (os arch user variant : Option String) (l : List Nat) (acc : List String) (x : String)
    (h : x ∈ acc) : x ∈ l.foldl (addMask dir env os arch user variant) acc := by
  induction l generalizing acc with
  | nil => exact h
  | cons m t ih => exact ih _ (addMask_mem_mono _ _ _ _ _ _ _ _ _ h)

theorem resolve_env_paths_mem_prod (osConst : String) (dir : Dir) (e : EnvState)
    (pprod : String)
    (h1 : e "DOTENVAGE_ENV" = none) (h2 : e "EKG_ENV" = none) (h3 : e "VERCEL_ENV" = none)
    (h4 : e "NODE_ENV" = some "production")
    (hpp : find_file_case_insensitive dir ".env.production" = some pprod) :
    pprod ∈ (resolve_env_paths osConst dir e).1 := by
  simp only [resolve_env_paths]
  rw [discover_env_noop dir e _ h4, resolve_env_production e h1 h2 h3 h4]
  have hcore : pprod ∈ maskList.foldl
      (addMask dir "production" (resolve_os osConst e) (resolve_arch e) (resolve_user e)
        (resolve_variant e))
      (add_exact_if_exist dir [] ".env") := by
    have hstep : ∀ acc, addMask dir "production" (resolve_os osConst e) (resolve_arch e)
        (resolve_user e) (resolve_variant e) acc 1 =
          add_exact_if_exist dir acc ".env.production" := fun acc => rfl
    rw [show maskList = 1 ::
        [2, 3, 4, 5, 6, 7, 8, 9, 10, 11, 12, 13, 14, 15, 16,
         17, 18, 19, 20, 21, 22, 23, 24, 25, 26, 27, 28, 29, 30, 31] from rfl,
      List.foldl_cons, hstep]
    exact foldl_addMask_mem_mono _ _ _ _ _ _ _ _ _
      (add_exact_mem_of_found dir _ _ _ hpp)
  cases resolve_pr_number e with
  | none => exact hcore
  | some pr => exact add_exact_mem_mono _ _ _ _ hcore

theorem dimDiscover_keys (vars : VarMap) (e : EnvState) (keys : List String)
    (pr : String × String) (h : pr ∈ dimDiscover vars e keys) : pr.1 ∈ keys := by
  unfold dimDiscover at h
  split at h
  · cases h
  · split at h
    case h_1 p hfind =>
      simp only [List.mem_singleton] at h
      subst h
      obtain ⟨k, hk, hfk⟩ := List.exists_of_findSome?_eq_some hfind
      cases hv : vars k with
      | none => rw [hv] at hfk; cases hfk
      | some v =>
        rw [hv] at hfk
        dsimp only at hfk
        split at hfk
        · obtain rfl := Option.some.inj hfk
          exact hk
        · cases hfk
    case h_2 => cases h

theorem dimDiscover_empty_of_set (vars : VarMap) (e : EnvState) (keys : List String)
    (k0 : String) (hk0 : k0 ∈ keys) (hset : (varNE e k0).isSome = true) :
    dimDiscover vars e keys = [] := by
  unfold dimDiscover
  rw [if_pos (List.any_eq_true.mpr ⟨k0, hk0, hset⟩)]

theorem varNE_production_isSome (e : EnvState) (h : e "NODE_ENV" = some "production") :
    (varNE e "NODE_ENV").isSome = true := by
  unfold varNE
  rw [h]
  decide

theorem discover_tail_keys (m : VarMap) (e : EnvState) :
    ∀ pr ∈ dimDiscover m e osKeys ++ dimDiscover m e archKeys ++
        dimDiscover m e userKeys ++ dimDiscover m e variantKeys,
      pr.1 ∈ osKeys ++ archKeys ++ userKeys ++ variantKeys := by
  intro pr hpr
  simp only [List.mem_append, or_assoc] at hpr ⊢
  rcases hpr with h | h | h | h
  · exact Or.inl (dimDiscover_keys m e _ pr h)
  · exact Or.inr (Or.inl (dimDiscover_keys m e _ pr h))
  · exact Or.inr (Or.inr (Or.inl (dimDiscover_keys m e _ pr h)))
  · exact Or.inr (Or.inr (Or.inr (dimDiscover_keys m e _ pr h)))

theorem discover_keys_of_env_set (m : VarMap) (e : EnvState)
    (hset : e "NODE_ENV" = some "production") :
    ∀ pr ∈ discover_dimensions_from_vars m e,
      pr.1 ∈ osKeys ++ archKeys ++ userKeys ++ variantKeys := by
  intro pr hpr
  unfold discover_dimensions_from_vars at hpr
  rw [dimDiscover_empty_of_set m e envKeys "NODE_ENV" (by simp [envKeys])
    (varNE_production_isSome e hset)] at hpr
  simp only [List.nil_append] at hpr
  exact discover_tail_keys m e pr hpr

theorem applyEnvPairs_append (e : EnvState) (a b : List (String × String)) :
    applyEnvPairs e (a ++ b) = applyEnvPairs (applyEnvPairs e a) b := by
  simp [applyEnvPairs, List.foldl_append]

theorem applyEnvPairs_preserve (e : EnvState) (ps : List (String × String)) (k : String)
    (h : ∀ pr ∈ ps, pr.1 ≠ k) : applyEnvPairs e ps k = e k := by
  induction ps generalizing e with
  | nil => rfl
  | cons p t ih =>
    rw [show applyEnvPairs e (p :: t) = applyEnvPairs (envSet e p.1 p.2) t from rfl,
      ih _ fun q hq => h q (by simp [hq])]
    unfold envSet
    rw [if_neg fun hkk => h p (by simp) hkk.symm]

theorem tail_keys_ne_env_keys :
    ∀ a ∈ osKeys ++ archKeys ++ userKeys ++ variantKeys, ∀ b ∈ envKeys, a ≠ b := by
  decide

theorem applyDiscover_env_key (m : VarMap) (e : EnvState)
    (hset : e "NODE_ENV" = some "production") (k : String) (hk : k ∈ envKeys) :
    applyEnvPairs e (discover_dimensions_from_vars m e) k = e k := by
  apply applyEnvPairs_preserve
  intro pr hpr
  exact tail_keys_ne_env_keys pr.1 (discover_keys_of_env_set m e hset pr hpr) k hk

theorem dimDiscover_env_seed (m : VarMap) (e : EnvState)
    (h0 : ∀ k ∈ envKeys, e k = none)
    (hm1 : m "DOTENVAGE_ENV" = none) (hm2 : m "EKG_ENV" = none)
    (hm3 : m "VERCEL_ENV" = none) (hm4 : m "NODE_ENV" = some "production") :
    dimDiscover m e envKeys = [("NODE_ENV", "production")] := by
  unfold dimDiscover
  rw [if_neg ?hneg]
  case hneg =>
    intro hany
    obtain ⟨k, hk, hks⟩ := List.any_eq_true.mp hany
    unfold varNE at hks
    rw [h0 k hk] at hks
    cases hks
  rw [show envKeys = ["DOTENVAGE_ENV", "EKG_ENV", "VERCEL_ENV", "NODE_ENV"] from rfl]
  simp only [List.findSome?_cons]
  rw [hm1, hm2, hm3, hm4]
  dsimp only
  rw [if_pos (by decide)]

theorem seed_env_key (m : VarMap) (e : EnvState)
    (h0 : ∀ k ∈ envKeys, e k = none)
    (hm1 : m "DOTENVAGE_ENV" = none) (hm2 : m "EKG_ENV" = none)
    (hm3 : m "VERCEL_ENV" = none) (hm4 : m "NODE_ENV" = some "production")
    (k : String) (hk : k ∈ envKeys) :
    applyEnvPairs e (discover_dimensions_from_vars m e) k =
      envSet e "NODE_ENV" "production" k := by
  have hd : discover_dimensions_from_vars m e =
      ("NODE_ENV", "production") ::
        (dimDiscover m e osKeys ++ dimDiscover m e archKeys ++
          dimDiscover m e userKeys ++ dimDiscover m e variantKeys) := by
    unfold discover_dimensions_from_vars
    rw [dimDiscover_env_seed m e h0 hm1 hm2 hm3 hm4]
    simp
  rw [hd,
    show applyEnvPairs e (("NODE_ENV", "production") ::
        (dimDiscover m e osKeys ++ dimDiscover m e archKeys ++
          dimDiscover m e userKeys ++ dimDiscover m e variantKeys)) =
      applyEnvPairs (envSet e "NODE_ENV" "production")
        (dimDiscover m e osKeys ++ dimDiscover m e archKeys ++
          dimDiscover m e userKeys ++ dimDiscover m e variantKeys) from rfl]
  exact applyEnvPairs_preserve _ _ k fun q hq =>
    tail_keys_ne_env_keys q.1 (discover_tail_keys m e q hq) k hk

theorem head?_append_of_head? (l t : List String) (a : String) (h : l.head? = some a) :
    (l ++ t).head? = some a := by
  cases l with
  | nil => cases h
  | cons x xs => simpa using h

/-- Invariant preservation through the fixpoint loop: starting from a
state whose environment has `NODE_ENV=production` discovered and the
three higher-priority ENV keys unset, whose merged map is the
`extendV`-fold of the parsed maps of the visited files, all of which
parsed successfully, the loop (when it halts normally) preserves all of
that and has visited the existing `.env.production` file. -/
theorem loadLoop_inv (decB : List Nat → Except String String)
    (armorDec : String → Except String String) (osConst : String) (dir : Dir)
    (pprod p0 : String)
    (hpp : find_file_case_insensitive dir ".env.production" = some pprod) :
    ∀ fuel st st',
      st.env "NODE_ENV" = some "production" →
      st.env "DOTENVAGE_ENV" = none → st.env "EKG_ENV" = none →
      st.env "VERCEL_ENV" = none →
      st.vars = mergeAll emptyV (st.order.map (fileVarsOf decB armorDec dir)) →
      (∀ q ∈ st.order, (load_env_file decB armorDec dir q).isOk = true) →
      st.order.head? = some p0 →
      loadLoop decB armorDec osConst dir fuel st = some (.ok, st') →
      pprod ∈ st'.order ∧
        st'.vars = mergeAll emptyV (st'.order.map (fileVarsOf decB armorDec dir)) ∧
        (∀ q ∈ st'.order, (load_env_file decB armorDec dir q).isOk = true) ∧
        st'.order.head? = some p0 := by
  intro fuel
  induction fuel with
  | zero => intro st st' _ _ _ _ _ _ _ hrun; cases hrun
  | succ n ih =>
    intro st st' h1 h2 h3 h4 hv ho hh hrun
    have hnoop : (resolve_env_paths osConst dir st.env).2 = st.env := by
      rw [show (resolve_env_paths osConst dir st.env).2 =
          discover_env_from_env_file dir st.env from rfl]
      exact discover_env_noop dir st.env _ h1
    cases hfind : (resolve_env_paths osConst dir st.env).1.find?
        (fun p => !memB p st.order && fileExists dir p) with
    | none =>
      simp only [loadLoop, hfind] at hrun
      simp only [Option.some.injEq, Prod.mk.injEq] at hrun
      obtain ⟨-, hst⟩ := hrun
      subst hst
      have hmemcand := resolve_env_paths_mem_prod osConst dir st.env pprod h2 h3 h4 h1 hpp
      have hnone := List.find?_eq_none.mp hfind pprod hmemcand
      have hmem : pprod ∈ st.order := by
        by_contra hnot
        apply hnone
        rw [Bool.and_eq_true, Bool.not_eq_true']
        refine ⟨?_, ffci_exists dir _ _ hpp⟩
        cases hmb : memB pprod st.order with
        | true => exact absurd ((memB_iff _ _).mp hmb) hnot
        | false => rfl
      exact ⟨hmem, hv, ho, hh⟩
    | some p =>
      simp only [loadLoop, hfind] at hrun
      cases hload : load_env_file decB armorDec dir p with
      | err e => rw [hload] at hrun; simp at hrun
      | panicked msg => rw [hload] at hrun; simp at hrun
      | ok m =>
        rw [hload] at hrun
        rw [hnoop] at hrun
        refine ih _ st' ?_ ?_ ?_ ?_ ?_ ?_ ?_ hrun
        · simpa using (applyDiscover_env_key m st.env h1 "NODE_ENV"
            (by simp [envKeys])).trans h1
        · simpa using (applyDiscover_env_key m st.env h1 "DOTENVAGE_ENV"
            (by simp [envKeys])).trans h2
        · simpa using (applyDiscover_env_key m st.env h1 "EKG_ENV"
            (by simp [envKeys])).trans h3
        · simpa using (applyDiscover_env_key m st.env h1 "VERCEL_ENV"
            (by simp [envKeys])).trans h4
        · show extendV st.vars m =
            mergeAll emptyV (((st.order ++ [p]).map (fileVarsOf decB armorDec dir)))
          rw [List.map_append, mergeAll_append, hv]
          have : fileVarsOf decB armorDec dir p = m := by
            unfold fileVarsOf
            rw [hload]
          simp [mergeAll, this]
        · intro q hq
          rcases List.mem_append.mp hq with hq | hq
          · exact ho q hq
          · simp at hq
            subst hq
            rw [show (load_env_file decB armorDec dir q).isOk =
                (RResult.ok m).isOk from by rw [hload]]
            rfl
        · exact head?_append_of_head? st.order [p] p0 hh

/-- C1 amended: if the ambient environment has no ENV source variable
set, `.env` exists and parses with `NODE_ENV=production` as its only
non-empty plaintext ENV source entry (no higher-priority
DOTENVAGE_ENV/EKG_ENV/VERCEL_ENV entry), `.env.production` exists, and
the collect succeeds, then `.env.production` is among the loaded files
(with `.env` loaded first), every key of its parsed map appears in the
merged map, and its value wins for any key not redefined by a file
loaded after it — in particular it overrides `.env`. -/
theorem collect_discovers_env_production (decB : List Nat → Except String String)
    (armorDec : String → Except String String) (osConst : String) (dir : Dir)
    (e0 : EnvState) (p0 pprod : String)
    (h0 : ∀ k ∈ envKeys, e0 k = none)
    (hp0 : find_file_case_insensitive dir ".env" = some p0)
    (hm1 : fileVarsOf decB armorDec dir p0 "DOTENVAGE_ENV" = none)
    (hm2 : fileVarsOf decB armorDec dir p0 "EKG_ENV" = none)
    (hm3 : fileVarsOf decB armorDec dir p0 "VERCEL_ENV" = none)
    (hm4 : fileVarsOf decB armorDec dir p0 "NODE_ENV" = some "production")
    (hpp : find_file_case_insensitive dir ".env.production" = some pprod)
    (hok : (collect_all_vars_from_dir decB armorDec osConst dir e0).out = ROut.ok) :
    pprod ∈ (collect_all_vars_from_dir decB armorDec osConst dir e0).order ∧
      (collect_all_vars_from_dir decB armorDec osConst dir e0).order.head? = some p0 ∧
      (∀ k, (fileVarsOf decB armorDec dir pprod k).isSome = true →
        ((collect_all_vars_from_dir decB armorDec osConst dir e0).vars k).isSome = true) ∧
      (∀ k v a b, fileVarsOf decB armorDec dir pprod k = some v →
        (collect_all_vars_from_dir decB armorDec osConst dir e0).order = a ++ pprod :: b →
        (∀ q ∈ b, fileVarsOf decB armorDec dir q k = none) →
        (collect_all_vars_from_dir decB armorDec osConst dir e0).vars k = some v) := by
  cases hseed : seedState decB armorDec dir e0 with
  | err e =>
    simp only [collect_all_vars_from_dir, hseed] at hok
    cases hok
  | panicked s =>
    simp only [collect_all_vars_from_dir, hseed] at hok
    cases hok
  | ok st =>
    simp only [collect_all_vars_from_dir, hseed] at hok ⊢
    cases hloop : loadLoop decB armorDec osConst dir (dir.length + 1) st with
    | none =>
      rw [hloop] at hok
      simp at hok
    | some pr =>
      obtain ⟨out, st'⟩ := pr
      cases out with
      | err e => rw [hloop] at hok; simp at hok
      | panicked msg => rw [hloop] at hok; simp at hok
      | ok =>
        clear hok
        dsimp only
        simp only [seedState, hp0] at hseed
        cases hload0 : load_env_file decB armorDec dir p0 with
        | err e => rw [hload0] at hseed; cases hseed
        | panicked msg => rw [hload0] at hseed; cases hseed
        | ok m =>
          rw [hload0] at hseed
          have hfm : fileVarsOf decB armorDec dir p0 = m := by
            unfold fileVarsOf
            rw [hload0]
          rw [hfm] at hm1 hm2 hm3 hm4
          injection hseed with hst
          have hinv := loadLoop_inv decB armorDec osConst dir pprod p0 hpp
            (dir.length + 1) st st' ?_ ?_ ?_ ?_ ?_ ?_ ?_ hloop
          · obtain ⟨hmem, hvars, hoks, hhead⟩ := hinv
            refine ⟨hmem, hhead, ?_, ?_⟩
            · intro k hks
              rw [hvars]
              exact mergeAll_mem_isSome _ emptyV _ k
                (List.mem_map_of_mem _ hmem) hks
            · intro k v a b hkv horder hb
              rw [hvars, horder, List.map_append, List.map_cons]
              refine mergeAll_last_some emptyV _ _ _ k v hkv fun y hy => ?_
              obtain ⟨q, hq, rfl⟩ := List.mem_map.mp hy
              exact hb q hq
          · rw [← hst]
            exact (seed_env_key m e0 h0 hm1 hm2 hm3 hm4 "NODE_ENV"
              (by simp [envKeys])).trans (by simp [envSet])
          · rw [← hst]
            refine (seed_env_key m e0 h0 hm1 hm2 hm3 hm4 "DOTENVAGE_ENV"
              (by simp [envKeys])).trans ?_
            rw [show envSet e0 "NODE_ENV" "production" "DOTENVAGE_ENV" =
              e0 "DOTENVAGE_ENV" from by simp [envSet]]
            exact h0 _ (by simp [envKeys])
          · rw [← hst]
            refine (seed_env_key m e0 h0 hm1 hm2 hm3 hm4 "EKG_ENV"
              (by simp [envKeys])).trans ?_
            rw [show envSet e0 "NODE_ENV" "production" "EKG_ENV" =
              e0 "EKG_ENV" from by simp [envSet]]
            exact h0 _ (by simp [envKeys])
          · rw [← hst]
            refine (seed_env_key m e0 h0 hm1 hm2 hm3 hm4 "VERCEL_ENV"
              (by simp [envKeys])).trans ?_
            rw [show envSet e0 "NODE_ENV" "production" "VERCEL_ENV" =
              e0 "VERCEL_ENV" from by simp [envSet]]
            exact h0 _ (by simp [envKeys])
          · rw [← hst]
            show extendV emptyV m = mergeAll emptyV ([p0].map (fileVarsOf decB armorDec dir))
            simp [mergeAll, hfm]
          · rw [← hst]
            intro q hq
            simp at hq
            subst hq
            rw [show (load_env_file decB armorDec dir q).isOk =
              (RResult.ok m).isOk from by rw [hload0]]
            rfl
          · rw [← hst]
            rfl

/-- Witness for the amended C1: the concrete happy path — `.env` with
only `NODE_ENV=production`, `.env.production` with `X=1` — puts `X`
into the merged map. -/
theorem collect_discovers_env_production_witness :
    ((collect_all_vars_from_dir (fun _ => Except.error "oracle")
        (fun _ => Except.error "oracle") "linux"
        [(".env", "NODE_ENV=production"), (".env.production", "X=1")]
        (fun _ => none)).vars "X").isSome = true :=
  (collect_discovers_env_production (fun _ => Except.error "oracle")
      (fun _ => Except.error "oracle") "linux"
      [(".env", "NODE_ENV=production"), (".env.production", "X=1")] (fun _ => none)
      ".env" ".env.production" (fun _ _ => rfl) (by decide) (by decide) (by decide)
      (by decide) (by decide) (by decide) (by decide)).2.2.1 "X" (by decide)

/-- C1 counterexample: the claim's precondition holds — `.env` contains
the plaintext line `NODE_ENV=production`, no ENV source variable is set
before the call, `.env.production` exists — yet because `.env` also
contains the higher-priority plaintext `DOTENVAGE_ENV=staging`, the
discovery picks `staging`, the load succeeds without ever loading
`.env.production`, and its key `X` is absent from the merged map. -/
theorem collect_env_priority_shadows_node_env :
    (collect_all_vars_from_dir (fun _ => Except.error "oracle")
          (fun _ => Except.error "oracle") "linux"
          [(".env", "DOTENVAGE_ENV=staging" ++ nl ++ "NODE_ENV=production"),
           (".env.production", "X=1")]
          (fun _ => none)).out = ROut.ok ∧
      (collect_all_vars_from_dir (fun _ => Except.error "oracle")
          (fun _ => Except.error "oracle") "linux"
          [(".env", "DOTENVAGE_ENV=staging" ++ nl ++ "NODE_ENV=production"),
           (".env.production", "X=1")]
          (fun _ => none)).vars "X" = none ∧
      (collect_all_vars_from_dir (fun _ => Except.error "oracle")
          (fun _ => Except.error "oracle") "linux"
          [(".env", "DOTENVAGE_ENV=staging" ++ nl ++ "NODE_ENV=production"),
           (".env.production", "X=1")]
          (fun _ => none)).order = [".env"] := by
  refine ⟨by decide, by decide, by decide⟩

end Dotenvage
